import Mathlib

/-!
Verification of the `teamigrate` command-line utility (`src/main.go`).

The program loops forever: it reads a line from standard input, strips the
last character (`url = url[:len(url)-1]`), matches the regular expression
`github\.com/([^/]+)/([^/]+)` against it, fetches the repository descriptor
from GitHub, builds a Gitea migration request and posts it, then classifies
the Gitea response.

The embedding below models one iteration of that loop (`migrateRepo`) as a
pure function of the configuration, the line delivered by the reader, and an
oracle for the two network calls.  Strings read from input are modelled as
`List Char`; HTTP status codes as `Nat`; JSON documents as an inductive
`Json` value, with `Option Json` for a response body that may fail to parse
(`none` covers both an unreadable body and malformed JSON text, which the Go
code treats identically: log and abandon the iteration).
-/

/-- `programOptions` from main.go lines 18-23: the four configuration strings. -/
structure programOptions where
  GiteaInstance : String
  GitHubToken : String
  GiteaToken : String
  GiteaOwner : String
deriving DecidableEq

/-- `GitHubRepo` from main.go lines 25-30: the decoded GitHub descriptor. -/
structure GitHubRepo where
  CloneURL : String
  Description : String
  Name : String
  Private : Bool
deriving DecidableEq

/-- `MigrateRepoOptions` from main.go lines 32-42: the Gitea migration request body. -/
structure MigrateRepoOptions where
  AuthToken : String
  CloneAddr : String
  Description : String
  Mirror : Bool
  Private : Bool
  RepoName : String
  RepoOwner : String
  Service : String
  Wiki : Bool
deriving DecidableEq

/-- `GiteaRepo` from main.go lines 44-47: the decoded Gitea response.
`Id` is Go `int64`, modelled as `Int`. -/
structure GiteaRepo where
  Id : Int
  HtmlUrl : String
deriving DecidableEq

/-- A JSON document, for modelling `encoding/json`.  Numbers are modelled as
integers (the two structs decoded here only hold `int64`, `string` and `bool`
fields, and a fractional number into `int64` is a decode error, which `num`
over `Int` cannot represent and the program never relies on). -/
inductive Json where
  | null
  | bool (b : Bool)
  | num (n : Int)
  | str (s : String)
  | arr (elems : List Json)
  | obj (fields : List (String × Json))

/-- ASCII lower-casing of one character.  Go compares JSON object keys with
field tags case-insensitively via `strings.EqualFold`; every tag in this
program is plain lower-case ASCII, for which the fold is ASCII
lower-casing. -/
def asciiLower (c : Char) : Char :=
  if 'A' ≤ c ∧ c ≤ 'Z' then Char.ofNat (c.toNat + 32) else c

/-- `encoding/json` key matching: a JSON object key selects a struct field by
exact match with the field tag, or by a case-insensitive match. -/
def keyMatches (tag key : String) : Bool :=
  tag = key || tag.toList.map asciiLower = key.toList.map asciiLower

/-- Decoding a JSON value into a Go `string` field: a JSON string replaces the
field, JSON `null` leaves it unchanged, anything else is a decode error. -/
def goStringField (old : String) : Json → Option String
  | .str s => some s
  | .null => some old
  | _ => none

/-- Decoding a JSON value into a Go `bool` field. -/
def goBoolField (old : Bool) : Json → Option Bool
  | .bool b => some b
  | .null => some old
  | _ => none

/-- Decoding a JSON value into a Go `int64` field. -/
def goIntField (old : Int) : Json → Option Int
  | .num n => some n
  | .null => some old
  | _ => none

/-- One key/value pair of a JSON object applied to a `GitHubRepo` being
decoded: tags from main.go lines 26-29; unknown keys are ignored. -/
def setGitHubRepoField (r : GitHubRepo) (key : String) (v : Json) : Option GitHubRepo :=
  if keyMatches "clone_url" key then (goStringField r.CloneURL v).map fun x => { r with CloneURL := x }
  else if keyMatches "description" key then (goStringField r.Description v).map fun x => { r with Description := x }
  else if keyMatches "name" key then (goStringField r.Name v).map fun x => { r with Name := x }
  else if keyMatches "private" key then (goBoolField r.Private v).map fun x => { r with Private := x }
  else some r

/-- Folding the key/value pairs of a JSON object, in document order, into a
`GitHubRepo`; a decode error on any pair aborts. -/
def unmarshalGitHubRepoFields : GitHubRepo → List (String × Json) → Option GitHubRepo
  | r, [] => some r
  | r, (k, v) :: rest =>
    match setGitHubRepoField r k v with
    | none => none
    | some r2 => unmarshalGitHubRepoFields r2 rest

/-- The zero value of `GitHubRepo`, the state of `var repo GitHubRepo`
(main.go line 105) before `json.Unmarshal` fills it. -/
def zeroGitHubRepo : GitHubRepo := ⟨"", "", "", false⟩

/-- `json.Unmarshal(body, &repo)` for `GitHubRepo` (main.go line 106): the
top level must be an object (fields absent from it keep their zero values) or
`null` (which leaves the zero value untouched); any other document is a
decode error. -/
def unmarshalGitHubRepo : Json → Option GitHubRepo
  | .null => some zeroGitHubRepo
  | .obj fields => unmarshalGitHubRepoFields zeroGitHubRepo fields
  | _ => none

/-- One key/value pair of a JSON object applied to a `GiteaRepo` being
decoded: tags from main.go lines 45-46. -/
def setGiteaRepoField (r : GiteaRepo) (key : String) (v : Json) : Option GiteaRepo :=
  if keyMatches "id" key then (goIntField r.Id v).map fun x => { r with Id := x }
  else if keyMatches "html_url" key then (goStringField r.HtmlUrl v).map fun x => { r with HtmlUrl := x }
  else some r

/-- Folding the key/value pairs of a JSON object into a `GiteaRepo`. -/
def unmarshalGiteaRepoFields : GiteaRepo → List (String × Json) → Option GiteaRepo
  | r, [] => some r
  | r, (k, v) :: rest =>
    match setGiteaRepoField r k v with
    | none => none
    | some r2 => unmarshalGiteaRepoFields r2 rest

/-- The zero value of `GiteaRepo` (`var giteaRepo GiteaRepo`, main.go line 165). -/
def zeroGiteaRepo : GiteaRepo := ⟨0, ""⟩

/-- `json.Unmarshal(giteaBody, &giteaRepo)` for `GiteaRepo` (main.go line 166). -/
def unmarshalGiteaRepo : Json → Option GiteaRepo
  | .null => some zeroGiteaRepo
  | .obj fields => unmarshalGiteaRepoFields zeroGiteaRepo fields
  | _ => none

/-- `json.Marshal(migrateOptions)` (main.go line 128): `encoding/json` emits
the struct fields in declaration order under their tag names
(main.go lines 32-42).  Marshalling of this struct cannot fail. -/
def marshalMigrateRepoOptions (m : MigrateRepoOptions) : List (String × Json) :=
  [("auth_token", .str m.AuthToken),
   ("clone_addr", .str m.CloneAddr),
   ("description", .str m.Description),
   ("mirror", .bool m.Mirror),
   ("private", .bool m.Private),
   ("repo_name", .str m.RepoName),
   ("repo_owner", .str m.RepoOwner),
   ("service", .str m.Service),
   ("wiki", .bool m.Wiki)]

/-- `url[:len(url)-1]` (main.go line 63).  The Go slice expression has high
bound `len(url)-1`; it is in range only when `0 ≤ len(url)-1`, so on an empty
string the statement panics with a slice-bounds-out-of-range runtime error,
modelled as `none`.  Otherwise it drops exactly the final character. -/
def stripLastChar (l : List Char) : Option (List Char) :=
  if l.isEmpty then none else some l.dropLast

/-- The literal part of the regular expression on main.go line 65:
`github\.com/` (the `\.` matches only a literal dot in RE2). -/
def ghLit : List Char := "github.com/".toList

/-- The part of the pattern after the first capture group: the literal `/`
followed by the greedy second `([^/]+)`; input that does not start with `/`
(for the `dropWhile` remainder fed to it, that means the end of the string)
fails the `/` literal. -/
def matchSecondSeg (own : List Char) : List Char → Option (List Char × List Char)
  | '/' :: rest2 =>
    let rep := rest2.takeWhile (fun c => c ≠ '/')
    if rep.isEmpty then none else some (own, rep)
  | _ => none

/-- Attempting the regular expression `github\.com/([^/]+)/([^/]+)` at the
start of `l`: the literal must match, then the greedy `[^/]+` takes the
maximal nonempty run of characters other than `/` (which must be nonempty),
then `matchSecondSeg` finishes the pattern.  Neither group can backtrack to
a shorter match usefully, because shortening it puts a non-`/` character
under the `/` literal, so the greedy maximal run is the unique candidate at
this position. -/
def matchAt (l : List Char) : Option (List Char × List Char) :=
  if ghLit.isPrefixOf l then
    let rest := l.drop ghLit.length
    let own := rest.takeWhile (fun c => c ≠ '/')
    if own.isEmpty then none
    else matchSecondSeg own (rest.dropWhile (fun c => c ≠ '/'))
  else none

/-- `re.FindStringSubmatch(url)` (main.go line 66): RE2 leftmost-match
semantics, scanning candidate start positions left to right and returning the
submatches of the first position where the whole pattern matches.  `none`
models Go returning a `nil` slice (so `len(match) != 3` holds and the program
reports an invalid URL); `some (owner, repo)` models the two capture
groups (`match[1]`, `match[2]`, main.go lines 71-72). -/
def findGitHubMatch : List Char → Option (List Char × List Char)
  | [] => none
  | c :: rest =>
    match matchAt (c :: rest) with
    | some p => some p
    | none => findGitHubMatch rest

/-- Scan for an occurrence of `pat` as a contiguous substring of a list
(used to state where the regular-expression literal can occur). -/
def containsSeq (pat : List Char) : List Char → Bool
  | [] => pat.isEmpty
  | c :: rest => pat.isPrefixOf (c :: rest) || containsSeq pat rest

/-- Outcome classification of the Gitea response, main.go lines 165-191. -/
inductive GiteaOutcome where
  | decodeError
  | forbidden
  | alreadyExists
  | wrongInput
  | creationFailed
  | created (htmlUrl : String)
deriving DecidableEq

/-- Classification of the Gitea migration response (main.go lines 165-191):
`json.Unmarshal` of the body runs first and its failure aborts before any
status check; then status 403, then 409, then 422 are reported; then a
decoded identifier of zero; otherwise success with the decoded web URL.
`decoded` is the result of decoding the response body (`none` for a body
that could not be read or was not valid JSON for `GiteaRepo`). -/
def classifyGiteaResponse (statusCode : Nat) (decoded : Option GiteaRepo) : GiteaOutcome :=
  match decoded with
  | none => .decodeError
  | some giteaRepo =>
    if statusCode = 403 then .forbidden
    else if statusCode = 409 then .alreadyExists
    else if statusCode = 422 then .wrongInput
    else if giteaRepo.Id = 0 then .creationFailed
    else .created giteaRepo.HtmlUrl

/-- `var authToken string; if repo.Private { authToken = options.GitHubToken }`
followed by the `MigrateRepoOptions{...}` literal, main.go lines 113-127. -/
def buildMigrateRepoOptions (options : programOptions) (repo : GitHubRepo) : MigrateRepoOptions :=
  { AuthToken := if repo.Private then options.GitHubToken else ""
    CloneAddr := repo.CloneURL
    Description := repo.Description
    Mirror := true
    Private := repo.Private
    RepoName := repo.Name
    RepoOwner := options.GiteaOwner
    Service := "github"
    Wiki := true }

/-- An HTTP response as seen by the program: the status code and the body.
`body = none` models a body that could not be read (`io.ReadAll` error) or
was not valid JSON text; both make the program log and abandon the
iteration, before anything else looks at the response. -/
structure HttpResponse where
  status : Nat
  body : Option Json

/-- Oracle for the two network calls of one iteration: `none` models a
transport error returned by `client.Do`. -/
structure NetworkEnv where
  github : Option HttpResponse
  gitea : Option HttpResponse

/-- How one iteration of the loop ends. -/
inductive IterationResult where
  | panicked
  | invalidURL
  | githubError
  | giteaError
  | finished (o : GiteaOutcome)
deriving DecidableEq

/-- Observable behaviour of one iteration: its result, whether each of the
two network calls was issued, and the Gitea request body if one was built. -/
structure IterationTrace where
  result : IterationResult
  githubCalled : Bool
  giteaCalled : Bool
  giteaRequest : Option MigrateRepoOptions
deriving DecidableEq

/-- `migrateRepo` (main.go lines 59-192), one loop iteration, as a function
of the configuration, the line delivered by `reader.ReadString` (including
any trailing newline, exactly as read), and the network oracle:
strip the last character (panicking on an empty read), match the regular
expression (no match: report invalid URL, no network call), issue the GitHub
GET (transport, read or JSON-decode failure aborts; the status code is never
consulted), build the migration request, issue the Gitea POST, and classify
its response. -/
def migrateRepo (options : programOptions) (line : List Char) (env : NetworkEnv) : IterationTrace :=
  match stripLastChar line with
  | none => ⟨.panicked, false, false, none⟩
  | some url =>
    match findGitHubMatch url with
    | none => ⟨.invalidURL, false, false, none⟩
    | some _ =>
      match env.github with
      | none => ⟨.githubError, true, false, none⟩
      | some resp =>
        match resp.body with
        | none => ⟨.githubError, true, false, none⟩
        | some j =>
          match unmarshalGitHubRepo j with
          | none => ⟨.githubError, true, false, none⟩
          | some repo =>
            let migrateOptions := buildMigrateRepoOptions options repo
            match env.gitea with
            | none => ⟨.giteaError, true, true, some migrateOptions⟩
            | some gresp =>
              ⟨.finished (classifyGiteaResponse gresp.status (gresp.body.bind unmarshalGiteaRepo)),
               true, true, some migrateOptions⟩

/-- The Go function receives `*programOptions` but contains no assignment
through the pointer; as a state transformer it returns the configuration it
was given. -/
def migrateRepoState (options : programOptions) (line : List Char) (env : NetworkEnv) :
    programOptions × IterationTrace :=
  (options, migrateRepo options line env)

/-- The `for { migrateRepo(&options) }` loop of `main` (main.go lines
201-203), run for a finite prefix of iterations: each iteration receives the
configuration state left by the previous one and the next input line and
network oracle. -/
def mainLoop (options : programOptions) : List (List Char × NetworkEnv) →
    programOptions × List IterationTrace
  | [] => (options, [])
  | (line, env) :: rest =>
    let step := migrateRepoState options line env
    let tail := mainLoop step.1 rest
    (tail.1, step.2 :: tail.2)

/-! ## Helper lemmas about the regular-expression model -/

/-- The host part of the pattern literal, without its final slash. -/
def ghDot : List Char := "github.com".toList

-- The literal of the pattern, split as `"github.com"` plus the final slash.
theorem ghLit_split : ghLit = ghDot ++ ['/'] := by decide

theorem ghLit_length : ghLit.length = 11 := by decide

theorem ghDot_length : ghDot.length = 10 := by decide

theorem isPrefixOf_self_append (p l : List Char) : p.isPrefixOf (p ++ l) = true :=
  List.isPrefixOf_iff_prefix.mpr (List.prefix_append p l)

-- A prefix of `t ++ u` no longer than `t` is a prefix of `t`.
theorem isPrefixOf_append_right (p t u : List Char) (hlen : p.length ≤ t.length)
    (h : p.isPrefixOf (t ++ u) = true) : p.isPrefixOf t = true := by
  have h2 : p <+: t ++ u := List.isPrefixOf_iff_prefix.mp h
  have h3 : p = (t ++ u).take p.length := List.prefix_iff_eq_take.mp h2
  rw [List.take_append_of_le_length hlen] at h3
  exact List.isPrefixOf_iff_prefix.mpr (h3 ▸ List.take_prefix p.length t)

-- The greedy `[^/]+` on a slash-free block followed by a slash takes exactly the block.
theorem takeWhile_slash_append (own t : List Char) (h : '/' ∉ own) :
    (own ++ '/' :: t).takeWhile (fun c => c ≠ '/') = own := by
  induction own with
  | nil => rw [List.nil_append, List.takeWhile_cons_of_neg (by simp)]
  | cons a own ih =>
    have ha : a ≠ '/' := fun e => h (e ▸ List.mem_cons_self a own)
    have h2 : '/' ∉ own := fun m => h (List.mem_cons_of_mem a m)
    rw [List.cons_append, List.takeWhile_cons_of_pos (by simp [ha]), ih h2]

theorem dropWhile_slash_append (own t : List Char) (h : '/' ∉ own) :
    (own ++ '/' :: t).dropWhile (fun c => c ≠ '/') = '/' :: t := by
  induction own with
  | nil => rw [List.nil_append, List.dropWhile_cons_of_neg (by simp)]
  | cons a own ih =>
    have ha : a ≠ '/' := fun e => h (e ▸ List.mem_cons_self a own)
    have h2 : '/' ∉ own := fun m => h (List.mem_cons_of_mem a m)
    rw [List.cons_append, List.dropWhile_cons_of_pos (by simp [ha]), ih h2]

theorem takeWhile_slash_all (rep : List Char) (h : '/' ∉ rep) :
    rep.takeWhile (fun c => c ≠ '/') = rep := by
  induction rep with
  | nil => rfl
  | cons a rep ih =>
    have ha : a ≠ '/' := fun e => h (e ▸ List.mem_cons_self a rep)
    have h2 : '/' ∉ rep := fun m => h (List.mem_cons_of_mem a m)
    rw [List.takeWhile_cons_of_pos (by simp [ha]), ih h2]

-- The pattern matches at the start of a decomposed candidate string, and the
-- greedy groups take exactly the two slash-free blocks.
-- The slash head of the remainder satisfies the `/` literal of the pattern
-- and the second group takes the maximal slash-free run after it.
theorem matchSecondSeg_cons (own rest2 : List Char) :
    matchSecondSeg own ('/' :: rest2) =
      if (rest2.takeWhile (fun c => c ≠ '/')).isEmpty then none
      else some (own, rest2.takeWhile (fun c => c ≠ '/')) := rfl

theorem matchAt_decomp (own rep post : List Char)
    (h1 : own ≠ []) (h2 : rep ≠ []) (h3 : '/' ∉ own) (h4 : '/' ∉ rep)
    (h6 : post = [] ∨ ∃ t, post = '/' :: t) :
    matchAt (ghLit ++ (own ++ ('/' :: (rep ++ post)))) = some (own, rep) := by
  have hp := isPrefixOf_self_append ghLit (own ++ ('/' :: (rep ++ post)))
  have hrep : (rep ++ post).takeWhile (fun c => c ≠ '/') = rep := by
    rcases h6 with h6 | ⟨t, h6⟩
    · rw [h6, List.append_nil]; exact takeWhile_slash_all rep h4
    · rw [h6]; exact takeWhile_slash_append rep t h4
  rw [matchAt]
  rw [if_pos hp, List.drop_left]
  dsimp only
  rw [takeWhile_slash_append own (rep ++ post) h3,
    dropWhile_slash_append own (rep ++ post) h3,
    if_neg (by simp [List.isEmpty_iff, h1]),
    matchSecondSeg_cons, hrep,
    if_neg (by simp [List.isEmpty_iff, h2])]

theorem matchAt_none_of_no_literal (l : List Char) (h : ghLit.isPrefixOf l = false) :
    matchAt l = none := by
  simp [matchAt, h]

theorem findGitHubMatch_of_matchAt (s : List Char) (p : List Char × List Char)
    (h : matchAt s = some p) : findGitHubMatch s = some p := by
  cases s with
  | nil => rw [show matchAt [] = none from by decide] at h; cases h
  | cons c rest => rw [findGitHubMatch, h]

theorem findGitHubMatch_cons_none (c : Char) (rest : List Char)
    (h : matchAt (c :: rest) = none) :
    findGitHubMatch (c :: rest) = findGitHubMatch rest := by
  rw [findGitHubMatch, h]

theorem containsSeq_of_isPrefixOf (p l : List Char) (h : p.isPrefixOf l = true) :
    containsSeq p l = true := by
  cases l with
  | nil =>
    cases p with
    | nil => rfl
    | cons a as => simp [List.isPrefixOf] at h
  | cons c rest => simp [containsSeq, h]

theorem containsSeq_cons_of (p : List Char) (c : Char) (rest : List Char)
    (h : containsSeq p rest = true) : containsSeq p (c :: rest) = true := by
  simp [containsSeq, h]

-- The head of a nonempty `dropWhile` remainder fails the predicate.
theorem dropWhile_head_false (p : Char → Bool) (l : List Char) (a : Char) (rest2 : List Char)
    (h : l.dropWhile p = a :: rest2) : p a = false := by
  induction l with
  | nil => cases h
  | cons c cl ih =>
    rw [List.dropWhile_cons] at h
    by_cases hc : p c = true
    · rw [if_pos hc] at h; exact ih h
    · rw [if_neg hc] at h
      cases h
      exact Bool.eq_false_iff.mpr hc

-- A successful `matchAt` yields nonempty slash-free groups and the matched
-- substring `github.com/<owner>/<repo>` is a prefix of the scanned suffix.
theorem matchAt_sound (l o r : List Char) (h : matchAt l = some (o, r)) :
    o ≠ [] ∧ r ≠ [] ∧ '/' ∉ o ∧ '/' ∉ r ∧
    (ghLit ++ (o ++ ('/' :: r))).isPrefixOf l = true := by
  rw [matchAt] at h
  by_cases hp : ghLit.isPrefixOf l = true
  · rw [if_pos hp] at h
    dsimp only at h
    by_cases ho : ((l.drop ghLit.length).takeWhile (fun c => c ≠ '/')).isEmpty = true
    · rw [if_pos ho] at h; cases h
    · rw [if_neg ho] at h
      cases hd : (l.drop ghLit.length).dropWhile (fun c => c ≠ '/') with
      | nil => rw [hd] at h; cases h
      | cons a rest2 =>
        rw [hd] at h
        have ha : a = '/' := by
          have hfa := dropWhile_head_false (fun c => c ≠ '/') _ a rest2 hd
          simpa using hfa
        subst ha
        rw [matchSecondSeg_cons] at h
        by_cases hr : (rest2.takeWhile (fun c => c ≠ '/')).isEmpty = true
        · rw [if_pos hr] at h; cases h
        · rw [if_neg hr] at h
          injection h with h2
          injection h2 with e1 e2
          subst e1
          subst e2
          refine ⟨fun hn => ho (by rw [hn]; rfl), fun hn => hr (by rw [hn]; rfl),
            fun hm => by have := List.mem_takeWhile_imp hm; simp at this,
            fun hm => by have := List.mem_takeWhile_imp hm; simp at this, ?_⟩
          obtain ⟨t, ht⟩ := List.isPrefixOf_iff_prefix.mp hp
          have hrest : List.drop ghLit.length l = t := by rw [← ht, List.drop_left]
          obtain ⟨u, hu⟩ := (List.takeWhile_prefix (fun c => c ≠ '/') : _ <+: rest2)
          refine List.isPrefixOf_iff_prefix.mpr ⟨u, ?_⟩
          have hd2 : List.dropWhile (fun c => c ≠ '/') t = '/' :: rest2 := by
            rw [← hrest]; exact hd
          have hsplit : t = List.takeWhile (fun c => c ≠ '/') t ++ ('/' :: rest2) := by
            conv_lhs => rw [← List.takeWhile_append_dropWhile (fun c => c ≠ '/') t]
            rw [hd2]
          rw [← ht, List.drop_left]
          conv_rhs => rw [hsplit, ← hu]
          simp [List.append_assoc]
  · rw [if_neg hp] at h; cases h

-- Soundness of the scan: a successful parse returns nonempty slash-free
-- groups and the string contains the matched substring.
theorem findGitHubMatch_sound (s o r : List Char) (h : findGitHubMatch s = some (o, r)) :
    o ≠ [] ∧ r ≠ [] ∧ '/' ∉ o ∧ '/' ∉ r ∧
    containsSeq (ghLit ++ (o ++ ('/' :: r))) s = true := by
  induction s with
  | nil => cases h
  | cons c rest ih =>
    rw [findGitHubMatch] at h
    cases hm : matchAt (c :: rest) with
    | some p =>
      rw [hm] at h
      have h2 : some p = some (o, r) := h
      have hp : p = (o, r) := by injection h2
      rw [hp] at hm
      obtain ⟨e1, e2, e3, e4, e5⟩ := matchAt_sound (c :: rest) o r hm
      exact ⟨e1, e2, e3, e4, containsSeq_of_isPrefixOf _ _ e5⟩
    | none =>
      rw [hm] at h
      have h2 : findGitHubMatch rest = some (o, r) := h
      obtain ⟨e1, e2, e3, e4, e5⟩ := ih h2
      exact ⟨e1, e2, e3, e4, containsSeq_cons_of _ c rest e5⟩

-- Completeness and exactness of the scan: on a string decomposed around the
-- first occurrence of the pattern literal, the parse returns exactly the two
-- complete path segments after the host, dropping any trailing segments.
theorem findGitHubMatch_complete (pre own rep post : List Char)
    (h1 : own ≠ []) (h2 : rep ≠ []) (h3 : '/' ∉ own) (h4 : '/' ∉ rep)
    (hpre : containsSeq ghLit (pre ++ ghDot) = false)
    (h6 : post = [] ∨ ∃ t, post = '/' :: t) :
    findGitHubMatch (pre ++ (ghLit ++ (own ++ ('/' :: (rep ++ post))))) = some (own, rep) := by
  induction pre with
  | nil =>
    rw [List.nil_append]
    exact findGitHubMatch_of_matchAt _ _ (matchAt_decomp own rep post h1 h2 h3 h4 h6)
  | cons c pre ih =>
    rw [List.cons_append, containsSeq] at hpre
    obtain ⟨hpf, hrest⟩ := Bool.or_eq_false_iff.mp hpre
    have hsplit : c :: (pre ++ (ghLit ++ (own ++ ('/' :: (rep ++ post))))) =
        (c :: (pre ++ ghDot)) ++ ('/' :: (own ++ ('/' :: (rep ++ post)))) := by
      rw [ghLit_split]
      simp [List.append_assoc]
    have hnp : ghLit.isPrefixOf (c :: (pre ++ (ghLit ++ (own ++ ('/' :: (rep ++ post)))))) =
        false := by
      by_cases hb : ghLit.isPrefixOf
          (c :: (pre ++ (ghLit ++ (own ++ ('/' :: (rep ++ post)))))) = true
      · exfalso
        rw [hsplit] at hb
        have hlen : ghLit.length ≤ (c :: (pre ++ ghDot)).length := by
          simp [ghLit_length, ghDot_length]
        have hcon := isPrefixOf_append_right ghLit _ _ hlen hb
        rw [hcon] at hpf
        cases hpf
      · exact Bool.eq_false_iff.mpr hb
    rw [List.cons_append, findGitHubMatch_cons_none c _ (matchAt_none_of_no_literal _ hnp)]
    exact ih hrest

/-! ## Claims -/

/-- Claim C2: the migration request's auth token is the configured GitHub
token exactly when the descriptor's private flag is set, and is empty
whenever the source repository is public (main.go lines 113-118). -/
theorem c2_auth_token_iff_private (options : programOptions) (repo : GitHubRepo) :
    ((buildMigrateRepoOptions options repo).AuthToken =
      if repo.Private then options.GitHubToken else "") ∧
    (repo.Private = true →
      (buildMigrateRepoOptions options repo).AuthToken = options.GitHubToken) ∧
    (repo.Private = false → (buildMigrateRepoOptions options repo).AuthToken = "") := by
  refine ⟨rfl, fun h => ?_, fun h => ?_⟩ <;> simp [buildMigrateRepoOptions, h]

/-- Witness for C2 at a private and a public descriptor. -/
theorem c2_auth_token_iff_private_witness :
    (buildMigrateRepoOptions ⟨"gitea.local", "ghtok", "gtok", "acme"⟩
      ⟨"c", "d", "n", true⟩).AuthToken = "ghtok" ∧
    (buildMigrateRepoOptions ⟨"gitea.local", "ghtok", "gtok", "acme"⟩
      ⟨"c", "d", "n", false⟩).AuthToken = "" :=
  ⟨(c2_auth_token_iff_private ⟨"gitea.local", "ghtok", "gtok", "acme"⟩
      ⟨"c", "d", "n", true⟩).2.1 rfl,
   (c2_auth_token_iff_private ⟨"gitea.local", "ghtok", "gtok", "acme"⟩
      ⟨"c", "d", "n", false⟩).2.2 rfl⟩

/-- Claim C5: a decoded response with identifier zero whose status is none of
403, 409, 422 is reported as "Repository creation failed", regardless of a
success-looking status (main.go lines 186-189). -/
theorem c5_zero_id_creation_failed (s : Nat) (r : GiteaRepo)
    (h403 : s ≠ 403) (h409 : s ≠ 409) (h422 : s ≠ 422) (hid : r.Id = 0) :
    classifyGiteaResponse s (some r) = GiteaOutcome.creationFailed := by
  simp [classifyGiteaResponse, h403, h409, h422, hid]

/-- Witness for C5 at status 200 with identifier 0. -/
theorem c5_zero_id_creation_failed_witness :
    classifyGiteaResponse 200 (some ⟨0, ""⟩) = GiteaOutcome.creationFailed :=
  c5_zero_id_creation_failed 200 ⟨0, ""⟩ (by decide) (by decide) (by decide) rfl

/-- Claim C6: when the parser finds no match in the stripped line, the
iteration reports an invalid URL and issues neither network call
(main.go lines 65-70). -/
theorem c6_no_match_no_network (options : programOptions) (line url : List Char)
    (env : NetworkEnv) (hs : stripLastChar line = some url)
    (hm : findGitHubMatch url = none) :
    migrateRepo options line env =
      ⟨IterationResult.invalidURL, false, false, none⟩ := by
  simp [migrateRepo, hs, hm]

/-- Witness for C6 on the line `hello`. -/
theorem c6_no_match_no_network_witness :
    migrateRepo ⟨"gitea.local", "ghtok", "gtok", "acme"⟩ "hello\n".toList ⟨none, none⟩ =
      ⟨IterationResult.invalidURL, false, false, none⟩ :=
  c6_no_match_no_network ⟨"gitea.local", "ghtok", "gtok", "acme"⟩ "hello\n".toList
    "hello".toList ⟨none, none⟩ (by decide) (by decide)

/-- Claim C7: the migration request sets mirror and wiki to true, service to
"github", repo owner to the configured Gitea owner, clone address to the
source's clone URL, copies description, name and private flag, and its JSON
serialization uses exactly the tag names of main.go lines 32-42 in struct
order. -/
theorem c7_request_construction (options : programOptions) (repo : GitHubRepo) :
    (buildMigrateRepoOptions options repo).Mirror = true ∧
    (buildMigrateRepoOptions options repo).Wiki = true ∧
    (buildMigrateRepoOptions options repo).Service = "github" ∧
    (buildMigrateRepoOptions options repo).RepoOwner = options.GiteaOwner ∧
    (buildMigrateRepoOptions options repo).CloneAddr = repo.CloneURL ∧
    (buildMigrateRepoOptions options repo).Description = repo.Description ∧
    (buildMigrateRepoOptions options repo).RepoName = repo.Name ∧
    (buildMigrateRepoOptions options repo).Private = repo.Private ∧
    (marshalMigrateRepoOptions (buildMigrateRepoOptions options repo)).map Prod.fst =
      ["auth_token", "clone_addr", "description", "mirror", "private",
       "repo_name", "repo_owner", "service", "wiki"] :=
  ⟨rfl, rfl, rfl, rfl, rfl, rfl, rfl, rfl, rfl⟩

/-- Claim C9: the configuration is never mutated: the per-iteration function
returns the configuration it received, and any finite run of the main loop
leaves the configuration snapshot unchanged (main.go lines 59-205). -/
theorem c9_options_immutable (options : programOptions)
    (inputs : List (List Char × NetworkEnv)) :
    (mainLoop options inputs).1 = options ∧
    (∀ line env, (migrateRepoState options line env).1 = options) := by
  refine ⟨?_, fun line env => rfl⟩
  induction inputs with
  | nil => rfl
  | cons he rest ih => simpa [mainLoop, migrateRepoState] using ih

/-- Claim C10: stripping removes exactly one trailing character whatever it
is; a final line `github.com/acme/widgets` arriving without a newline is
parsed with repo name `widget` (main.go lines 62-63). -/
theorem c10_strips_exactly_one :
    (∀ l : List Char, l ≠ [] → stripLastChar l = some l.dropLast) ∧
    stripLastChar "github.com/acme/widgets".toList =
      some "github.com/acme/widget".toList ∧
    findGitHubMatch "github.com/acme/widget".toList =
      some ("acme".toList, "widget".toList) := by
  refine ⟨fun l h => ?_, by decide, by decide⟩
  rw [stripLastChar, if_neg (by simp [List.isEmpty_iff, h])]

/-- Witness for C10 on a line whose last character is not a newline. -/
theorem c10_strips_exactly_one_witness :
    stripLastChar "ab".toList = some "ab".toList.dropLast :=
  c10_strips_exactly_one.1 "ab".toList (by decide)

/-- Claim C8 counterexample: an empty read result (the closed-stream case,
where `ReadString` returns the empty string) is NOT treated like a
non-matching URL: the last-character-stripping step `url[:len(url)-1]` is out
of range on it, so the iteration panics instead of reporting
"Invalid GitHub URL". -/
theorem c8_counterexample :
    (migrateRepo ⟨"gitea.local", "ghtok", "gtok", "acme"⟩ [] ⟨none, none⟩).result =
      IterationResult.panicked ∧
    IterationResult.panicked ≠ IterationResult.invalidURL ∧
    stripLastChar [] = none :=
  ⟨rfl, by decide, rfl⟩

/-- Claim C8 (amended): an empty line (read as a lone newline) is treated
like a non-matching URL — "Invalid GitHub URL", no network call, loop
continues — but a closed input stream yields an empty read result, on which
the last-character-stripping step is out of range (a runtime panic), so the
stripping step is not total on an empty read result (main.go lines 60-70). -/
theorem c8_empty_line_vs_closed_stream (options : programOptions) (env : NetworkEnv) :
    migrateRepo options ['\n'] env =
      ⟨IterationResult.invalidURL, false, false, none⟩ ∧
    stripLastChar ['\n'] = some [] ∧
    migrateRepo options [] env = ⟨IterationResult.panicked, false, false, none⟩ ∧
    stripLastChar [] = none :=
  ⟨rfl, rfl, rfl, rfl⟩

/-- Claim C3: for inputs containing a substring matched by
`github.com/<owner>/<repo>` (owner and repo nonempty and slash-free), the
parser extracts exactly that owner and repo regardless of surrounding text,
scheme or trailing path segments, capturing only the first two path segments
after the host.  Part one pins the designated substring as the one at the
first occurrence of the pattern literal (RE2 returns the leftmost match) and
requires `<repo>` to be a complete path segment; part two is soundness: any
successful parse returns nonempty slash-free groups forming a matching
substring of the input (main.go lines 65-72). -/
theorem c3_parser_extracts_owner_repo :
    (∀ pre own rep post : List Char,
      own ≠ [] → rep ≠ [] → '/' ∉ own → '/' ∉ rep →
      containsSeq ghLit (pre ++ ghDot) = false →
      (post = [] ∨ ∃ t, post = '/' :: t) →
      findGitHubMatch (pre ++ (ghLit ++ (own ++ ('/' :: (rep ++ post))))) =
        some (own, rep)) ∧
    (∀ s o r : List Char, findGitHubMatch s = some (o, r) →
      o ≠ [] ∧ r ≠ [] ∧ '/' ∉ o ∧ '/' ∉ r ∧
      containsSeq (ghLit ++ (o ++ ('/' :: r))) s = true) :=
  ⟨findGitHubMatch_complete, findGitHubMatch_sound⟩

/-- Witness for C3: a URL with scheme, `www.` host prefix, surrounding text
and trailing path segments yields exactly the owner `acme` and repo
`widgets`. -/
theorem c3_parser_extracts_owner_repo_witness :
    findGitHubMatch ("See https://www.".toList ++ (ghLit ++ ("acme".toList ++
      ('/' :: ("widgets".toList ++ "/tree/main".toList))))) =
      some ("acme".toList, "widgets".toList) :=
  c3_parser_extracts_owner_repo.1 "See https://www.".toList "acme".toList
    "widgets".toList "/tree/main".toList (by decide) (by decide) (by decide)
    (by decide) (by decide) (Or.inr ⟨"tree/main".toList, by decide⟩)

/-- Claim C1: the Gitea outcome is classified in order: a transport or
JSON-decode failure aborts first (a decode failure yields no status check at
all, whatever the status); otherwise status 403 is "Forbidden", then 409 is
"Repository with this name already exists", then 422 is "Wrong input?", then
a decoded identifier of zero is "Repository creation failed", and otherwise
success is reported with the decoded web URL (main.go lines 159-192). -/
theorem c1_gitea_outcome_classification :
    (∀ statusCode : Nat,
      classifyGiteaResponse statusCode none = GiteaOutcome.decodeError) ∧
    (∀ (options : programOptions) (line : List Char) (env : NetworkEnv)
        (url : List Char) (p : List Char × List Char) (resp : HttpResponse)
        (j : Json) (repo : GitHubRepo),
      stripLastChar line = some url → findGitHubMatch url = some p →
      env.github = some resp → resp.body = some j →
      unmarshalGitHubRepo j = some repo → env.gitea = none →
      (migrateRepo options line env).result = IterationResult.giteaError) ∧
    (∀ r : GiteaRepo, classifyGiteaResponse 403 (some r) = GiteaOutcome.forbidden) ∧
    (∀ r : GiteaRepo, classifyGiteaResponse 409 (some r) = GiteaOutcome.alreadyExists) ∧
    (∀ r : GiteaRepo, classifyGiteaResponse 422 (some r) = GiteaOutcome.wrongInput) ∧
    (∀ (s : Nat) (r : GiteaRepo), s ≠ 403 → s ≠ 409 → s ≠ 422 → r.Id = 0 →
      classifyGiteaResponse s (some r) = GiteaOutcome.creationFailed) ∧
    (∀ (s : Nat) (r : GiteaRepo), s ≠ 403 → s ≠ 409 → s ≠ 422 → r.Id ≠ 0 →
      classifyGiteaResponse s (some r) = GiteaOutcome.created r.HtmlUrl) := by
  refine ⟨fun s => rfl, ?_, fun r => rfl, fun r => rfl, fun r => rfl,
    fun s r h1 h2 h3 h4 => by simp [classifyGiteaResponse, h1, h2, h3, h4],
    fun s r h1 h2 h3 h4 => by simp [classifyGiteaResponse, h1, h2, h3, h4]⟩
  intro options line env url p resp j repo h1 h2 h3 h4 h5 h6
  simp [migrateRepo, h1, h2, h3, h4, h5, h6]

/-- Witness for C1: each branch of the classification at concrete inputs,
and a Gitea transport failure aborting a concrete iteration. -/
theorem c1_gitea_outcome_classification_witness :
    classifyGiteaResponse 200 none = GiteaOutcome.decodeError ∧
    classifyGiteaResponse 409 (some ⟨0, "u"⟩) = GiteaOutcome.alreadyExists ∧
    classifyGiteaResponse 200 (some ⟨42, "https://gitea.local/acme/widgets"⟩) =
      GiteaOutcome.created "https://gitea.local/acme/widgets" ∧
    classifyGiteaResponse 204 (some ⟨0, "u"⟩) = GiteaOutcome.creationFailed ∧
    (migrateRepo ⟨"gitea.local", "ghtok", "gtok", "acme"⟩
      "https://github.com/acme/widgets\n".toList
      ⟨some ⟨200, some (Json.obj [("name", Json.str "widgets")])⟩, none⟩).result =
      IterationResult.giteaError :=
  ⟨c1_gitea_outcome_classification.1 200,
   c1_gitea_outcome_classification.2.2.2.1 ⟨0, "u"⟩,
   c1_gitea_outcome_classification.2.2.2.2.2.2 200
     ⟨42, "https://gitea.local/acme/widgets"⟩ (by decide) (by decide) (by decide)
     (by decide),
   c1_gitea_outcome_classification.2.2.2.2.2.1 204 ⟨0, "u"⟩ (by decide) (by decide)
     (by decide) rfl,
   c1_gitea_outcome_classification.2.1 ⟨"gitea.local", "ghtok", "gtok", "acme"⟩
     "https://github.com/acme/widgets\n".toList
     ⟨some ⟨200, some (Json.obj [("name", Json.str "widgets")])⟩, none⟩
     "https://github.com/acme/widgets".toList ("acme".toList, "widgets".toList)
     ⟨200, some (Json.obj [("name", Json.str "widgets")])⟩
     (Json.obj [("name", Json.str "widgets")]) ⟨"", "", "widgets", false⟩
     (by decide) (by decide) rfl rfl (by decide) rfl⟩

/-- Claim C4: the GitHub fetch step never inspects the HTTP status code:
replacing the status of the GitHub response by any other value leaves the
whole iteration unchanged; a JSON object body with no known fields (such as
a 404/401 error body) decodes to the all-zero descriptor; and whenever the
body decodes, the flow proceeds to attempt a Gitea migration built from that
descriptor (main.go lines 86-127). -/
theorem c4_github_status_never_inspected :
    (∀ (options : programOptions) (line : List Char) (env : NetworkEnv)
        (resp : HttpResponse) (s2 : Nat), env.github = some resp →
      migrateRepo options line { env with github := some { resp with status := s2 } } =
        migrateRepo options line env) ∧
    unmarshalGitHubRepo (Json.obj []) = some zeroGitHubRepo ∧
    unmarshalGitHubRepo (Json.obj [("message", Json.str "Not Found"),
      ("documentation_url", Json.str "docs")]) = some zeroGitHubRepo ∧
    (∀ (options : programOptions) (line url : List Char) (env : NetworkEnv)
        (p : List Char × List Char) (resp : HttpResponse) (j : Json)
        (repo : GitHubRepo),
      stripLastChar line = some url → findGitHubMatch url = some p →
      env.github = some resp → resp.body = some j →
      unmarshalGitHubRepo j = some repo →
      (migrateRepo options line env).giteaCalled = true ∧
      (migrateRepo options line env).giteaRequest =
        some (buildMigrateRepoOptions options repo)) := by
  refine ⟨?_, by decide, by decide, ?_⟩
  · rintro options line ⟨g, t⟩ ⟨st, body⟩ s2 hg
    cases hg
    simp only [migrateRepo]
  · intro options line url env p resp j repo h1 h2 h3 h4 h5
    cases henv : env.gitea with
    | none => constructor <;> simp [migrateRepo, h1, h2, h3, h4, h5, henv]
    | some gresp => constructor <;> simp [migrateRepo, h1, h2, h3, h4, h5, henv]

/-- Witness for C4: a 404 GitHub response with an empty JSON object body is
handled identically to a 200 response, and the iteration still attempts the
Gitea call. -/
theorem c4_github_status_never_inspected_witness :
    migrateRepo ⟨"gitea.local", "ghtok", "gtok", "acme"⟩
        "https://github.com/acme/widgets\n".toList
        ⟨some ⟨200, some (Json.obj [])⟩, none⟩ =
      migrateRepo ⟨"gitea.local", "ghtok", "gtok", "acme"⟩
        "https://github.com/acme/widgets\n".toList
        ⟨some ⟨404, some (Json.obj [])⟩, none⟩ ∧
    (migrateRepo ⟨"gitea.local", "ghtok", "gtok", "acme"⟩
        "https://github.com/acme/widgets\n".toList
        ⟨some ⟨404, some (Json.obj [])⟩, none⟩).giteaCalled = true :=
  ⟨c4_github_status_never_inspected.1 ⟨"gitea.local", "ghtok", "gtok", "acme"⟩
     "https://github.com/acme/widgets\n".toList
     ⟨some ⟨404, some (Json.obj [])⟩, none⟩ ⟨404, some (Json.obj [])⟩ 200 rfl,
   (c4_github_status_never_inspected.2.2.2 ⟨"gitea.local", "ghtok", "gtok", "acme"⟩
     "https://github.com/acme/widgets\n".toList
     "https://github.com/acme/widgets".toList
     ⟨some ⟨404, some (Json.obj [])⟩, none⟩ ("acme".toList, "widgets".toList)
     ⟨404, some (Json.obj [])⟩ (Json.obj []) zeroGitHubRepo
     (by decide) (by decide) rfl rfl (by decide)).1⟩
